import Mathlib

/-!
Verification of the media-repost pipeline in `src/hello.py`.

The pipeline polls a feed, downloads media, normalizes it under a byte
budget, and republishes it as a thread on a social platform.  This file
gives a shallow embedding of the functions the specification talks about
(`split_into_thread`, `create_hashtag_facets`, `download_media`,
`compress_video`'s CRF search, `compress_image`, `create_bluesky_thread`
and the scratch-file cleanup of `check_and_post`) and proves or refutes
the specified properties.

External effects (HTTP responses, ffmpeg encodes, PIL decoding, blob
uploads, post creation) are modelled as oracle functions supplied as
arguments; the control flow around them is translated line by line from
the source.  Python text is modelled as `List Char` so that slicing maps
to `take`/`drop`.
-/

/-- Race-specific hashtag (`RACE_HASHTAG` in the source). -/
def RACE_HASHTAG : String := "AustrianGP"

/-- The hashtag suffix reserved out of the first segment's budget:
`"#f1 #formula1 #memes #" + RACE_HASHTAG` in `split_into_thread`. -/
def hashtag_section : String := "#f1 #formula1 #memes #" ++ RACE_HASHTAG

/-- The `while remaining:` loop of `split_into_thread`
(`src/hello.py` lines 100-106): a chunk of `limit` characters at most is
emitted each round; every non-final chunk is `remaining[:limit-3]`
followed by the three-character `"..."` marker.  For `limit ≤ 3` the
Python loop would never shrink `remaining` (for `limit = 3`,
`remaining[0:]` is `remaining`); that divergent region is guarded by
returning the remaining text so the Lean function is total — no claim is
evaluated there (the source always calls with `limit = 300`). -/
def thread_rest (limit : Nat) (remaining : List Char) : List (List Char) :=
  if remaining = [] then []
  else if remaining.length ≤ limit then [remaining]
  else if limit ≤ 3 then [remaining]
  else
    (remaining.take (limit - 3) ++ "...".toList) ::
      thread_rest limit (remaining.drop (limit - 3))
termination_by remaining.length
decreasing_by
  simp only [List.length_drop]
  omega

/-- `split_into_thread(text, limit)` (`src/hello.py` lines 88-108).
`first_post_limit = limit - len(hashtag_section) - 2`; if the text fits
it is returned as the single chunk, otherwise the first
`first_post_limit` characters form chunk one and the rest is chunked by
the `while` loop.  Subtraction is `Nat` truncated subtraction; it agrees
with Python for `limit ≥ 34` (`hashtag_section` has 32 characters), and
the theorems below carry that hypothesis. -/
def split_into_thread (text : List Char) (limit : Nat) : List (List Char) :=
  let first_post_limit := limit - hashtag_section.length - 2
  if text.length ≤ first_post_limit then [text]
  else
    text.take first_post_limit ::
      thread_rest limit (text.drop first_post_limit)

/-- Payload of a non-final continuation chunk: the chunk with its
trailing 3-character `"..."` marker stripped. -/
def strip_marker (chunk : List Char) : List Char :=
  chunk.take (chunk.length - 3)

/-- Join the continuation chunks of a thread: every chunk but the last
contributes its payload (marker stripped), the final chunk contributes
itself unchanged. -/
def join_tail : List (List Char) → List Char
  | [] => []
  | [c] => c
  | c :: rest => strip_marker c ++ join_tail rest

/-- Join all chunks of a thread: the first chunk as-is, then the
continuation chunks via `join_tail`. -/
def thread_payload_join : List (List Char) → List Char
  | [] => []
  | first :: rest => first ++ join_tail rest

/-- UTF-8 encoding of a single character (the byte sequence
`str.encode("utf-8")` produces for it). -/
def utf8EncodeChar (c : Char) : List Nat :=
  let n := c.toNat
  if n < 128 then [n]
  else if n < 2048 then [192 + n / 64, 128 + n % 64]
  else if n < 65536 then [224 + n / 4096, 128 + n / 64 % 64, 128 + n % 64]
  else [240 + n / 262144, 128 + n / 4096 % 64, 128 + n / 64 % 64, 128 + n % 64]

/-- UTF-8 encoding of a text, as the list of its bytes
(`formatted_text.encode("utf-8")` in the source). -/
def utf8Bytes (l : List Char) : List Nat :=
  (l.map utf8EncodeChar).join

/-- Python's `text.find(pat)` (character index of the first occurrence,
`none` when absent). -/
def find_sub (pat : List Char) (t : List Char) : Option Nat :=
  if pat.isPrefixOf t then some 0
  else
    match t with
    | [] => none
    | _ :: t' => (find_sub pat t').map (· + 1)

/-- One of the rich-text tag annotations built by
`create_hashtag_facets`: UTF-8 byte offsets into the formatted text,
plus the tag (without its `#`). -/
structure Facet where
  byteStart : Nat
  byteEnd : Nat
  tag : List Char
deriving DecidableEq

/-- The fixed tag set iterated by `create_hashtag_facets`
(`["f1", "formula1", "memes", RACE_HASHTAG]`). -/
def hashtag_tags : List (List Char) :=
  ["f1".toList, "formula1".toList, "memes".toList, RACE_HASHTAG.toList]

/-- `create_hashtag_facets(formatted_text)` (`src/hello.py` lines
111-128): for each tag whose `#tag` form occurs in the text, emit a
facet whose byte offsets are the UTF-8 lengths of
`formatted_text[:tag_pos]` and `formatted_text[:tag_pos+len(tag_with_hash)]`. -/
def create_hashtag_facets (formatted_text : List Char) : List Facet :=
  hashtag_tags.filterMap (fun tag =>
    match find_sub ('#' :: tag) formatted_text with
    | none => none
    | some tag_pos =>
      some ⟨(utf8Bytes (formatted_text.take tag_pos)).length,
            (utf8Bytes
              (formatted_text.take (tag_pos + ('#' :: tag).length))).length,
            tag⟩)

/-- The observable outcome of one `requests.get` attempt inside
`download_media` (`src/hello.py` lines 480-521):
* `ok status nonempty` — the GET returned and `raise_for_status()` did
  not raise; `nonempty` says whether the file written for a 200 response
  verifies as existing and non-empty;
* `httpError status` — `raise_for_status()` raised
  `requests.exceptions.HTTPError` with the given status code;
* `reqError` — a `requests.exceptions.RequestException`;
* `ioError` — an `IOError` while writing the file;
* `otherError` — any other exception. -/
inductive FetchOutcome
  | ok (status : Nat) (nonempty : Bool)
  | httpError (status : Nat)
  | reqError
  | ioError
  | otherError
deriving DecidableEq

/-- Result of `download_media`: success flag, number of GET attempts
made, and the attempt indices after which `time.sleep(retry_delay)` ran. -/
structure DMResult where
  success : Bool
  attempts : Nat
  sleeps : List Nat
deriving DecidableEq

/-- The `for attempt in range(max_retries)` loop of `download_media`
with `max_retries = 3` and `retry_delay = 5` seconds, written with the
number of loop iterations still to run (`fuel = 3 - attempt`) as the
recursion argument.  A non-exception response returns immediately
(`True` for a verified 200 write, `False` otherwise).  An `HTTPError`
with status 429 when `attempt < max_retries - 1` sleeps and retries;
every other caught exception falls out of its `except` block and the
`for` loop proceeds to the next attempt with no delay.  When the loop
exhausts its range the function returns `False`. -/
def dm_loop (oracle : Nat → FetchOutcome) :
    Nat → Nat → List Nat → DMResult
  | 0, attempt, sleeps => ⟨false, attempt, sleeps⟩
  | fuel + 1, attempt, sleeps =>
    match oracle attempt with
    | .ok status nonempty =>
      if status = 200 then
        if nonempty then ⟨true, attempt + 1, sleeps⟩
        else ⟨false, attempt + 1, sleeps⟩
      else ⟨false, attempt + 1, sleeps⟩
    | .httpError status =>
      if status = 429 ∧ attempt < 3 - 1 then
        dm_loop oracle fuel (attempt + 1) (sleeps ++ [attempt])
      else dm_loop oracle fuel (attempt + 1) sleeps
    | .reqError => dm_loop oracle fuel (attempt + 1) sleeps
    | .ioError => dm_loop oracle fuel (attempt + 1) sleeps
    | .otherError => dm_loop oracle fuel (attempt + 1) sleeps

/-- `download_media(url, filename)` over an oracle giving each
attempt's outcome: the loop runs for at most `max_retries = 3`
attempts starting at attempt 0 with no sleeps recorded. -/
def download_media (oracle : Nat → FetchOutcome) : DMResult :=
  dm_loop oracle 3 0 []

/-- State of the CRF search loop in `compress_video`
(`src/hello.py` lines 215-217): `min_crf = 18`, `max_crf = 35`,
`current_crf = min_crf` initially. -/
structure CVState where
  min_crf : Nat
  max_crf : Nat
  current_crf : Nat
deriving DecidableEq

/-- One iteration of the `while min_crf <= max_crf:` loop of
`compress_video` (`src/hello.py` lines 219-291).  The encoder is the
oracle `encode : crf → Option size`; `none` models an ffmpeg run that
produced no output file (`os.path.exists(output_path)` false) — note
that `subprocess.run` is called without `check=True`, so a failed
encode does not raise and the `except CalledProcessError` branch is
unreachable.  When output exists: a size within budget is accepted
immediately if this is the best-quality attempt (`current_crf ==
min_crf`) or the size exceeds 90% of budget (the float comparison
`current_size > target_size * 0.9` is modelled exactly on integers as
`9 * target < 10 * size`; no reachable size sits between the two
thresholds' rounding), else `max_crf = current_crf - 1`; an oversized
output moves `min_crf = current_crf + 1`.  In every non-returning case
`current_crf = (min_crf + max_crf) // 2` with the updated bounds. -/
def cv_step (encode : Nat → Option Nat) (target : Nat) (s : CVState) :
    Bool ⊕ CVState :=
  match encode s.current_crf with
  | some size =>
    if size ≤ target then
      if s.current_crf = s.min_crf ∨ 9 * target < 10 * size then Sum.inl true
      else
        Sum.inr ⟨s.min_crf, s.current_crf - 1,
          (s.min_crf + (s.current_crf - 1)) / 2⟩
    else
      Sum.inr ⟨s.current_crf + 1, s.max_crf,
        (s.current_crf + 1 + s.max_crf) / 2⟩
  | none => Sum.inr ⟨s.min_crf, s.max_crf, (s.min_crf + s.max_crf) / 2⟩

/-- The `while min_crf <= max_crf:` loop itself, with explicit fuel;
`none` means the fuel ran out before the loop returned (in the source
that corresponds to the loop still running). -/
def cv_loop (encode : Nat → Option Nat) (target : Nat) :
    Nat → CVState → Option Bool
  | 0, _ => none
  | fuel + 1, s =>
    if s.min_crf ≤ s.max_crf then
      match cv_step encode target s with
      | Sum.inl b => some b
      | Sum.inr s' => cv_loop encode target fuel s'
    else some false

/-- `compress_video(video_path, max_size_kb)` for a file over budget
enters the CRF search from `⟨18, 35, 18⟩`; a file already within budget
returns `True` immediately (`src/hello.py` lines 197-293).  Fuel 19
exceeds the initial range size 18, which suffices whenever every encode
produces an output file (`compress_video_search_terminates`). -/
def compress_video (encode : Nat → Option Nat)
    (original_size target_size : Nat) : Option Bool :=
  if original_size ≤ target_size then some true
  else cv_loop encode target_size 19 ⟨18, 35, 18⟩

/-- An image successfully opened by `PIL.Image.open`: its color
`mode` string and an encoder oracle `encSize quality scale` giving the
byte size of the JPEG re-encode of the (possibly resized) image at the
given quality and scale factor, when that encode succeeds.  Whether
`save(format="JPEG")` succeeds at all is decided by the image's mode
(`jpeg_writable`), not by the oracle. -/
structure PyImage where
  mode : String
  encSize : Nat → ℚ → Nat

/-- Contents of the file at `image_path` after `compress_image` ran:
either untouched (the function raised before writing) or the bytes
produced by `resized_img.save(..., format="JPEG", quality, ...)` at the
final quality/scale, of the given size, in the colorspace of the given
(normalized) mode — grayscale JPEG for mode `L`, truecolor for `RGB`,
and so on; the source never converts to RGB except from RGBA/P. -/
inductive FileContent
  | untouched
  | jpegEncoded (mode : String) (quality : Nat) (scale : ℚ) (size : Nat)
deriving DecidableEq

/-- `img.convert("RGB")` applied when `img.mode in ("RGBA", "P")`
(`src/hello.py` lines 299-300).  Any other mode is left as it is. -/
def convert_if_needed (img : PyImage) : PyImage :=
  if img.mode = "RGBA" ∨ img.mode = "P" then PyImage.mk "RGB" img.encSize
  else img

/-- The modes PIL's JPEG plugin can write (its `RAWMODE` table): for
any other mode — e.g. `LA`, `PA`, `I`, `F` — `save(format="JPEG")`
raises `OSError("cannot write mode ... as JPEG")`. -/
def jpeg_writable_modes : List String :=
  ["1", "L", "RGB", "RGBX", "CMYK", "YCbCr"]

/-- Whether `save(format="JPEG")` succeeds for an image of this mode. -/
def jpeg_writable (mode : String) : Bool :=
  jpeg_writable_modes.contains mode

/-- The `while True:` loop of `compress_image`
(`src/hello.py` lines 305-324), from quality 95 and scale 1.0: encode,
stop once the encoded size fits the budget; otherwise lower quality by
5 while above 20, then multiply scale by 0.75; stop (keeping the bytes
already encoded this iteration) once the updated scale drops below 0.3.
Scale arithmetic is over `ℚ`; every float value the Python loop reaches
(`0.75^k` for `k ≤ 5`) is exactly representable and never ties with
the 0.3 threshold, so the models agree.  The result is the final
`(quality, scale, size)` of the bytes held in `img_byte_arr` when the
loop exits; `none` means the fuel ran out (shown impossible from the
initial state in `ci_loop_init_isSome`). -/
def ci_loop (enc : Nat → ℚ → Nat) (budget : Nat) :
    Nat → Nat → ℚ → Option (Nat × ℚ × Nat)
  | 0, _, _ => none
  | fuel + 1, quality, scale =>
    if enc quality scale ≤ budget then some (quality, scale, enc quality scale)
    else if (if 20 < quality then scale else scale * (3/4)) < 3/10 then
      some (quality, scale, enc quality scale)
    else
      ci_loop enc budget fuel (if 20 < quality then quality - 5 else quality)
        (if 20 < quality then scale else scale * (3/4))

/-- `compress_image(image_path, max_size_kb)`
(`src/hello.py` lines 296-329).  The input is the result of
`Image.open(image_path)`: `none` models an unreadable path (the open
raises and the exception propagates — `compress_image` has no handler),
in which case no boolean is returned and the file is untouched.  If the
opened image's mode after the RGBA/P-only normalization is not
JPEG-writable, the first `resized_img.save(..., format="JPEG")`
(`src/hello.py` line 313) raises with no handler — resizing never
changes the mode, so this happens in the first iteration, before
anything is written: again no boolean and an untouched file.
Otherwise the loop runs from quality 95 / scale 1.0, every save
succeeds, and the final encode is written unconditionally; the
returned verdict is `os.path.getsize(image_path) <= max_size_kb *
1024`, i.e. whether the written size fits the budget. -/
def compress_image (openRes : Option PyImage) (max_size_kb : Nat) :
    Option Bool × FileContent :=
  match openRes with
  | none => (none, FileContent.untouched)
  | some img =>
    if jpeg_writable (convert_if_needed img).mode then
      match ci_loop (convert_if_needed img).encSize (max_size_kb * 1024)
          20 95 1 with
      | none => (none, FileContent.untouched)
      | some (quality, scale, size) =>
        (some (decide (size ≤ max_size_kb * 1024)),
          FileContent.jpegEncoded (convert_if_needed img).mode
            quality scale size)
    else (none, FileContent.untouched)

/-- Python `s.endswith(suf)` on `List Char` text. -/
def ends_with (s suf : List Char) : Bool := List.isSuffixOf suf s

/-- Python `s.lower()` on `List Char` text. -/
def to_lower (s : List Char) : List Char := s.map Char.toLower

/-- The image-extension filter of `create_bluesky_thread`
(`p.lower().endswith((".jpg", ".jpeg", ".png", ".webp"))`,
`src/hello.py` lines 344-348). -/
def is_image_path (p : List Char) : Bool :=
  ends_with (to_lower p) ".jpg".toList
    || ends_with (to_lower p) ".jpeg".toList
    || ends_with (to_lower p) ".png".toList
    || ends_with (to_lower p) ".webp".toList

/-- The video-extension filter of `create_bluesky_thread`
(`p.lower().endswith((".mp4", ".gif"))`, `src/hello.py` line 349). -/
def is_video_path (p : List Char) : Bool :=
  ends_with (to_lower p) ".mp4".toList || ends_with (to_lower p) ".gif".toList

/-- Output name of `convert_gif_to_mp4`:
`f"{gif_path[:-4]}.mp4"` (`src/hello.py` line 166). -/
def gif_to_mp4_name (p : List Char) : List Char :=
  p.take (p.length - 4) ++ ".mp4".toList

/-- Text carried by one post of the thread: the full formatted text
(first chunk plus hashtag suffix), a positional continuation caption
`f"Continued... ({i//4 + 1}/{(len(image_paths) + 3)//4})"`, or the
video caption `f"{text_chunks[0]} (Video)"`. -/
inductive PostText
  | full
  | continued (k n : Nat)
  | videoCaption
deriving DecidableEq

/-- Provenance of one post: the image batch starting at index `i` of
the image list, or a single video file. -/
inductive PostKind
  | imageBatch (i : Nat)
  | video (path : List Char)
deriving DecidableEq

/-- One successfully created post, as observable through the posting
client: its text kind, whether facets were passed, the reply reference
passed (`{root, parent}` uris) or `none`, its own uri, and — for the
proofs — the value `root_uri` had when it was created. -/
structure BskyPost where
  kind : PostKind
  text : PostText
  hasFacets : Bool
  reply : Option (Nat × Nat)
  uri : Nat
  rootAtCreation : Option Nat
deriving DecidableEq

/-- Oracles for the external effects inside `create_bluesky_thread`:
`verify_file_size`, `compress_image`'s verdict, `compress_video`'s
verdict, `upload_blob` producing a blob, the n-th post-creation call
(`send_post`/`send_video`) returning a truthy result, and
`convert_gif_to_mp4` succeeding.  A post-creation exception has the
same state effect as a falsy result for the claims below (state
unchanged), so both are modelled by `sendOk = false`. -/
structure World where
  sizeOk : List Char → Bool
  compressImageOk : List Char → Bool
  compressVideoOk : List Char → Bool
  uploadOk : List Char → Bool
  sendOk : Nat → Bool
  convertGifOk : List Char → Bool

/-- Mutable state of `create_bluesky_thread`: `root_uri`, `parent_uri`,
a counter of post-creation attempts (used to key `sendOk` and to mint
distinct uris), and the posts created so far. -/
structure TState where
  root : Option Nat
  parent : Option Nat
  ctr : Nat
  posts : List BskyPost
deriving DecidableEq

/-- The batches `image_paths[i:i+4]` for `i in range(0, len, 4)`
(`src/hello.py` lines 352-353), paired with their start index. -/
def chunk4 (l : List (List Char)) : List (Nat × List (List Char)) :=
  (List.range ((l.length + 3) / 4)).map
    (fun b => (4 * b, (l.drop (4 * b)).take 4))

/-- One iteration of the image-batch loop of `create_bluesky_thread`
(`src/hello.py` lines 352-417).  A file enters the embed iff it passes
the size check or compresses successfully, and uploads; a batch with no
uploaded images is skipped.  `post_text` is the full formatted text and
`facets` are passed iff the batch index `i` is 0; the reply reference
is `{root, parent}` when both exist.  On a truthy post result the first
successful post becomes the root and the parent always advances. -/
def process_batch (w : World) (total : Nat) (st : TState)
    (batch : Nat × List (List Char)) : TState :=
  if batch.2.filter
      (fun p => (w.sizeOk p || w.compressImageOk p) && w.uploadOk p) = [] then
    st
  else if w.sendOk st.ctr then
    TState.mk
      (match st.root with | none => some st.ctr | some r => some r)
      (some st.ctr) (st.ctr + 1)
      (st.posts ++ [BskyPost.mk (PostKind.imageBatch batch.1)
        (if batch.1 = 0 then PostText.full
          else PostText.continued (batch.1 / 4 + 1) ((total + 3) / 4))
        (decide (batch.1 = 0))
        (match st.root, st.parent with
          | some r, some p => some (r, p)
          | _, _ => none)
        st.ctr st.root])
  else TState.mk st.root st.parent (st.ctr + 1) st.posts

/-- The gif-to-mp4 rebinding at the top of the video loop
(`src/hello.py` lines 420-423): on successful conversion the local
`video_path` becomes the `.mp4` name; on failure it stays the `.gif`. -/
def converted_video_path (w : World) (path0 : List Char) : List Char :=
  if ends_with path0 ".gif".toList then
    (if w.convertGifOk path0 then gif_to_mp4_name path0 else path0)
  else path0

/-- One iteration of the video loop of `create_bluesky_thread`
(`src/hello.py` lines 419-452).  The file is skipped only when both the
size check and `compress_video` fail.  `post_text` is the full
formatted text and `facets` are passed iff `root_uri` is still unset.
A `reply_ref` is computed from `{root, parent}` (lines 435-440) but
`send_video` is called without it (lines 442-447), so the created post
carries no reply reference.  On a truthy result root/parent update as
in the image loop. -/
def process_video (w : World) (st : TState) (path0 : List Char) : TState :=
  if !(w.sizeOk (converted_video_path w path0))
      && !(w.compressVideoOk (converted_video_path w path0)) then
    st
  else if w.sendOk st.ctr then
    TState.mk
      (match st.root with | none => some st.ctr | some r => some r)
      (some st.ctr) (st.ctr + 1)
      (st.posts ++ [BskyPost.mk
        (PostKind.video (converted_video_path w path0))
        (if st.root = none then PostText.full else PostText.videoCaption)
        (decide (st.root = none))
        none
        st.ctr st.root])
  else TState.mk st.root st.parent (st.ctr + 1) st.posts

/-- `create_bluesky_thread(title, media_paths, author)`
(`src/hello.py` lines 332-458): image batches first, then videos, from
an empty thread state.  The source's return value (`True`, or `False`
on an exception escaping to the outer handler) is not part of the
claims; the state carries everything they mention. -/
def create_bluesky_thread (w : World) (media_paths : List (List Char)) :
    TState :=
  (media_paths.filter is_video_path).foldl (process_video w)
    ((chunk4 (media_paths.filter is_image_path)).foldl
      (process_batch w (media_paths.filter is_image_path).length)
      (TState.mk none none 0 []))

/-- World in which every external call succeeds. -/
def wAllOk : World :=
  World.mk (fun _ => true) (fun _ => true) (fun _ => true) (fun _ => true)
    (fun _ => true) (fun _ => true)

/-- World in which everything succeeds except the first post-creation
attempt (attempt 0), which returns a falsy result. -/
def wFirstSendFails : World :=
  World.mk (fun _ => true) (fun _ => true) (fun _ => true) (fun _ => true)
    (fun n => decide (n ≠ 0)) (fun _ => true)

/-- The text/facet rule one created post obeys: an image-batch post
carries the full text and the facets exactly when its batch index is 0;
a video post carries them exactly when no root existed when it was
created. -/
def postTextOk (p : BskyPost) : Prop :=
  match p.kind with
  | PostKind.imageBatch i =>
      (p.text = PostText.full ↔ i = 0) ∧ (p.hasFacets = true ↔ i = 0)
  | PostKind.video _ =>
      (p.text = PostText.full ↔ p.rootAtCreation = none)
      ∧ (p.hasFacets = true ↔ p.rootAtCreation = none)

/-- Invariant of the thread state: a root exists iff some post was
created; every created post obeys `postTextOk`; and a post was created
with no root present iff it is the first post of the thread. -/
def ThreadInv (st : TState) : Prop :=
  (st.root = none ↔ st.posts = [])
  ∧ (∀ p ∈ st.posts, postTextOk p)
  ∧ (∀ k, ∀ h : k < st.posts.length,
      ((st.posts.get ⟨k, h⟩).rootAtCreation = none ↔ k = 0))

/-- Files present in scratch storage, by name. -/
def convert_gif_to_mp4_fs (w : World) (fs : List (List Char))
    (p : List Char) : List (List Char) × List Char :=
  if ends_with p ".gif".toList then
    if w.convertGifOk p then
      ((fs.erase p) ++ [gif_to_mp4_name p], gif_to_mp4_name p)
    else (fs, p)
  else (fs, p)

/-- Net effect of `create_bluesky_thread` on the set of scratch files:
only `convert_gif_to_mp4` changes the name set (`os.remove(gif_path)`
plus creation of the `.mp4`, `src/hello.py` lines 165-194);
`compress_image` and `compress_video` rewrite or replace files in
place under the same name (lines 276-277, 326-327), and uploads only
read. -/
def thread_fs_effect (w : World) (fs : List (List Char))
    (media_paths : List (List Char)) : List (List Char) :=
  (media_paths.filter is_video_path).foldl
    (fun acc p => (convert_gif_to_mp4_fs w acc p).1) fs

/-- The `finally:` cleanup of `check_and_post`
(`src/hello.py` lines 780-784): for each name in `media_files`, delete
the file if it still exists. -/
def cleanup_media_files (fs : List (List Char))
    (media_files : List (List Char)) : List (List Char) :=
  media_files.foldl (fun acc f => acc.erase f) fs

/-- One source item's publish attempt in `check_and_post`, viewed
through the scratch file set: the downloaded files `media_files` exist,
the publish step runs its file effects, then the `finally:` cleanup
deletes every name recorded in `media_files` that still exists. -/
def check_and_post_item_fs (w : World)
    (media_files : List (List Char)) : List (List Char) :=
  cleanup_media_files (thread_fs_effect w media_files media_files)
    media_files

theorem thread_rest_ne_nil (limit : Nat) (remaining : List Char)
    (h : remaining ≠ []) : thread_rest limit remaining ≠ [] := by
  rw [thread_rest]
  split
  · exact absurd (by assumption) h
  · split
    · exact (by simp)
    · split
      · exact (by simp)
      · exact (by simp)

theorem join_tail_cons_of_ne_nil (c : List Char) (rest : List (List Char))
    (h : rest ≠ []) : join_tail (c :: rest) = strip_marker c ++ join_tail rest := by
  cases rest with
  | nil => exact absurd rfl h
  | cons d tl => rfl

/-- Re-joining the continuation chunks produced by `thread_rest`
recovers the remaining text exactly. -/
theorem join_tail_thread_rest (limit : Nat) (h4 : 4 ≤ limit) :
    ∀ n (remaining : List Char), remaining.length ≤ n → remaining ≠ [] →
      join_tail (thread_rest limit remaining) = remaining := by
  intro n
  induction n with
  | zero =>
    intro remaining hlen hne
    exact absurd (List.length_eq_zero.mp (Nat.le_zero.mp hlen)) hne
  | succ n ih =>
    intro remaining hlen hne
    rw [thread_rest]
    by_cases hnil : remaining = []
    · exact absurd hnil hne
    · simp only [if_neg hnil]
      by_cases hshort : remaining.length ≤ limit
      · simp [hshort, join_tail]
      · have hlim : ¬ limit ≤ 3 := by omega
        simp only [if_neg hshort, if_neg hlim]
        have hlong : limit < remaining.length := Nat.lt_of_not_le hshort
        have hdrop_ne : remaining.drop (limit - 3) ≠ [] := by
          intro hd
          have := List.length_drop (limit - 3) remaining
          rw [hd] at this
          simp at this
          omega
        have hdrop_len : (remaining.drop (limit - 3)).length ≤ n := by
          rw [List.length_drop]
          omega
        have hrec := ih (remaining.drop (limit - 3)) hdrop_len hdrop_ne
        rw [join_tail_cons_of_ne_nil _ _
          (thread_rest_ne_nil limit _ hdrop_ne), hrec]
        have htake_len : (remaining.take (limit - 3)).length = limit - 3 := by
          rw [List.length_take]
          omega
        have hdots : ("...".toList).length = 3 := rfl
        have hchunk_len :
            (remaining.take (limit - 3) ++ "...".toList).length = limit := by
          rw [List.length_append, htake_len, hdots]
          omega
        rw [strip_marker, hchunk_len, List.take_left' htake_len,
          List.take_append_drop]

/-- C9: For every text of length at most the first-segment budget
(`limit - len(hashtag_section) - 2`, i.e. `limit - 34`),
`split_into_thread` returns exactly one chunk and that chunk is the text
unchanged (`src/hello.py` lines 88-93).  The hypothesis `34 ≤ limit`
keeps the `Nat` subtraction in agreement with Python. -/
theorem split_into_thread_short_text (text : List Char) (limit : Nat)
    (hlim : 34 ≤ limit)
    (h : text.length ≤ limit - hashtag_section.length - 2) :
    split_into_thread text limit = [text] := by
  rw [split_into_thread]
  simp only [h, if_pos]

/-- Witness for `split_into_thread_short_text` at `limit = 300` and a
concrete short text. -/
theorem split_into_thread_short_text_witness :
    split_into_thread ("hello".toList) 300 = ["hello".toList] :=
  split_into_thread_short_text ("hello".toList) 300 (by decide) (by decide)

/-- C6: For every text strictly longer than the first-segment budget,
concatenating the payloads of the chunks returned by `split_into_thread`
— the first chunk as-is, each non-final later chunk with its trailing
3-character `"..."` marker stripped, the final chunk as-is — recovers
exactly the original text, with no characters missing and none
duplicated (`src/hello.py` lines 88-108). -/
theorem split_into_thread_rejoin (text : List Char) (limit : Nat)
    (hlim : 34 ≤ limit)
    (h : limit - hashtag_section.length - 2 < text.length) :
    thread_payload_join (split_into_thread text limit) = text := by
  rw [split_into_thread]
  have hle : ¬ text.length ≤ limit - hashtag_section.length - 2 :=
    Nat.not_le_of_lt h
  simp only [if_neg hle]
  rw [thread_payload_join]
  have hdrop_ne : text.drop (limit - hashtag_section.length - 2) ≠ [] := by
    intro hd
    have := List.length_drop (limit - hashtag_section.length - 2) text
    rw [hd] at this
    simp at this
    omega
  rw [join_tail_thread_rest limit (by omega) _ _ (Nat.le_refl _) hdrop_ne,
    List.take_append_drop]

/-- Witness for `split_into_thread_rejoin`: a 300-character text at
`limit = 300` (first-segment budget 266) splits into two chunks whose
payloads re-join to the text. -/
theorem split_into_thread_rejoin_witness :
    thread_payload_join (split_into_thread (List.replicate 300 'a') 300)
      = List.replicate 300 'a' :=
  split_into_thread_rejoin (List.replicate 300 'a') 300 (by decide)
    (by rw [List.length_replicate]; decide)

theorem utf8Bytes_append (a b : List Char) :
    utf8Bytes (a ++ b) = utf8Bytes a ++ utf8Bytes b := by
  simp [utf8Bytes]

theorem find_sub_spec (pat : List Char) :
    ∀ t pos, find_sub pat t = some pos → pat <+: t.drop pos := by
  intro t
  induction t with
  | nil =>
    intro pos h
    rw [find_sub] at h
    by_cases hp : pat.isPrefixOf ([] : List Char)
    · simp only [hp, if_pos] at h
      cases h
      exact List.isPrefixOf_iff_prefix.mp hp
    · simp [hp] at h
  | cons c t' ih =>
    intro pos h
    rw [find_sub] at h
    by_cases hp : pat.isPrefixOf (c :: t')
    · simp only [hp, if_pos, Option.some.injEq] at h
      cases h
      exact List.isPrefixOf_iff_prefix.mp hp
    · simp only [hp, if_neg, Bool.false_eq_true, not_false_eq_true,
        Option.map_eq_some'] at h
      obtain ⟨p', hp', hpos⟩ := h
      cases hpos
      rw [List.drop_succ_cons]
      exact ih p' hp'

/-- C7: For every facet produced by `create_hashtag_facets`, the UTF-8
byte range `[byteStart, byteEnd)` of the text's UTF-8 encoding is
exactly the encoding of the hashtag `#tag` — also when multibyte
characters precede the hashtag, since the offsets are computed from
encoded prefixes, not character counts. -/
theorem create_hashtag_facets_byte_range (text : List Char) (f : Facet)
    (hf : f ∈ create_hashtag_facets text) :
    ((utf8Bytes text).drop f.byteStart).take (f.byteEnd - f.byteStart)
      = utf8Bytes ('#' :: f.tag) := by
  rw [create_hashtag_facets, List.mem_filterMap] at hf
  obtain ⟨tag, htag_mem, htag⟩ := hf
  cases hfind : find_sub ('#' :: tag) text with
  | none => rw [hfind] at htag; exact absurd htag (by simp)
  | some pos =>
    rw [hfind] at htag
    simp only [Option.some.injEq] at htag
    cases htag
    obtain ⟨rest, hrest⟩ := find_sub_spec ('#' :: tag) text pos hfind
    have hsplit : text = text.take pos ++ (('#' :: tag) ++ rest) := by
      conv_lhs => rw [← List.take_append_drop pos text, ← hrest]
    have htake : text.take (pos + ('#' :: tag).length)
        = text.take pos ++ ('#' :: tag) := by
      rw [List.take_add]
      have h1 : (text.drop pos).take ('#' :: tag).length = '#' :: tag := by
        rw [← hrest, List.take_left]
      rw [h1]
    have hbytes : utf8Bytes text
        = utf8Bytes (text.take pos)
          ++ (utf8Bytes ('#' :: tag) ++ utf8Bytes rest) := by
      conv_lhs => rw [hsplit]
      rw [utf8Bytes_append, utf8Bytes_append]
    have hend : (utf8Bytes (text.take (pos + ('#' :: tag).length))).length
        = (utf8Bytes (text.take pos)).length
          + (utf8Bytes ('#' :: tag)).length := by
      rw [htake, utf8Bytes_append, List.length_append]
    simp only [hend]
    rw [hbytes, List.drop_left, Nat.add_sub_cancel_left, List.take_left]

/-- Witness for `create_hashtag_facets_byte_range`: in `"é #f1"` (a
2-byte character precedes the hashtag) the facet is `⟨3, 6, "f1"⟩` and
bytes 3..6 decode to `"#f1"`. -/
theorem create_hashtag_facets_byte_range_witness :
    ((utf8Bytes ("é #f1".toList)).drop
        ((⟨3, 6, "f1".toList⟩ : Facet).byteStart)).take
        ((⟨3, 6, "f1".toList⟩ : Facet).byteEnd
          - (⟨3, 6, "f1".toList⟩ : Facet).byteStart)
      = utf8Bytes ('#' :: (⟨3, 6, "f1".toList⟩ : Facet).tag) :=
  create_hashtag_facets_byte_range ("é #f1".toList) ⟨3, 6, "f1".toList⟩
    (by decide)

/-- C4 counterexample: with every attempt answering HTTP 404 (an
`HTTPError` that is not 429), `download_media` makes 3 GET attempts and
then fails — not a single attempt as the claim states, because after
the non-429 `except` branch logs the error, control falls through and
the `for` loop retries.  No backoff sleep occurs. -/
theorem download_media_retries_non_429 :
    download_media (fun _ => FetchOutcome.httpError 404)
      = ⟨false, 3, []⟩ ∧ (3 : Nat) ≠ 1 := by
  constructor
  · rfl
  · decide

/-- C4 (amended): `download_media` makes at most 3 attempts; a sleep
(the fixed 5-second backoff) happens only after a 429 `HTTPError` on a
non-final attempt (attempt index < 2); every caught error — 429 or not
— is retried until the attempts are exhausted; success is reported only
when an attempt returns status 200 and the written file verifies
non-empty. -/
theorem download_media_retry_policy (oracle : Nat → FetchOutcome) :
    (download_media oracle).attempts ≤ 3
    ∧ ((download_media oracle).sleeps.all
        (fun i => decide (oracle i = FetchOutcome.httpError 429)
          && decide (i < 2)) = true)
    ∧ ((download_media oracle).success = true →
        oracle ((download_media oracle).attempts - 1)
          = FetchOutcome.ok 200 true) := by
  have key : ∀ fuel attempt sleeps, attempt + fuel ≤ 3 →
      (sleeps.all (fun i => decide (oracle i = FetchOutcome.httpError 429)
        && decide (i < 2)) = true) →
      (dm_loop oracle fuel attempt sleeps).attempts ≤ 3
      ∧ ((dm_loop oracle fuel attempt sleeps).sleeps.all
          (fun i => decide (oracle i = FetchOutcome.httpError 429)
            && decide (i < 2)) = true)
      ∧ ((dm_loop oracle fuel attempt sleeps).success = true →
          oracle ((dm_loop oracle fuel attempt sleeps).attempts - 1)
            = FetchOutcome.ok 200 true) := by
    intro fuel
    induction fuel with
    | zero =>
      intro attempt sleeps hat hsl
      rw [dm_loop]
      exact ⟨(by omega : attempt ≤ 3), hsl,
        fun hcontra => by simp at hcontra⟩
    | succ fuel ih =>
      intro attempt sleeps hat hsl
      rw [dm_loop]
      cases houtcome : oracle attempt with
      | ok status nonempty =>
        by_cases hs : status = 200
        · cases nonempty with
          | true =>
            simp only [hs, if_pos, if_true]
            refine ⟨by omega, hsl, fun _ => ?_⟩
            rw [Nat.add_sub_cancel, houtcome, hs]
          | false =>
            simp only [hs, if_pos, Bool.false_eq_true, if_false]
            exact ⟨by omega, hsl, fun hcontra => by simp at hcontra⟩
        · simp only [hs, if_neg, not_false_eq_true]
          exact ⟨by omega, hsl, fun hcontra => by simp at hcontra⟩
      | httpError status =>
        by_cases hc : status = 429 ∧ attempt < 3 - 1
        · simp only [hc, if_pos]
          refine ih (attempt + 1) (sleeps ++ [attempt]) (by omega) ?_
          rw [List.all_append]
          simp only [hsl, Bool.true_and, List.all_cons, List.all_nil,
            Bool.and_true]
          rw [houtcome, hc.1]
          simp only [decide_eq_true_eq, Bool.and_eq_true]
          exact ⟨by simp, by simpa using hc.2⟩
        · simp only [hc, if_neg, not_false_eq_true]
          exact ih (attempt + 1) sleeps (by omega) hsl
      | reqError => exact ih (attempt + 1) sleeps (by omega) hsl
      | ioError => exact ih (attempt + 1) sleeps (by omega) hsl
      | otherError => exact ih (attempt + 1) sleeps (by omega) hsl
  exact key 3 0 [] (by omega) (by simp)

/-- Witness for `download_media_retry_policy` at a concrete oracle
whose first attempt succeeds. -/
theorem download_media_retry_policy_witness :
    (download_media (fun _ => FetchOutcome.ok 200 true)).attempts ≤ 3
    ∧ ((download_media (fun _ => FetchOutcome.ok 200 true)).sleeps.all
        (fun i => decide ((fun _ => FetchOutcome.ok 200 true) i
            = FetchOutcome.httpError 429) && decide (i < 2)) = true)
    ∧ ((download_media (fun _ => FetchOutcome.ok 200 true)).success = true →
        (fun _ => FetchOutcome.ok 200 true)
            ((download_media (fun _ => FetchOutcome.ok 200 true)).attempts - 1)
          = FetchOutcome.ok 200 true) :=
  download_media_retry_policy (fun _ => FetchOutcome.ok 200 true)

theorem cv_step_inl_met_budget (encode : Nat → Option Nat) (target : Nat)
    (s : CVState) (b : Bool) (hstep : cv_step encode target s = Sum.inl b) :
    ∃ size, encode s.current_crf = some size ∧ size ≤ target := by
  rw [cv_step] at hstep
  cases henc : encode s.current_crf with
  | none => rw [henc] at hstep; simp at hstep
  | some size =>
    rw [henc] at hstep
    by_cases hsz : size ≤ target
    · exact ⟨size, rfl, hsz⟩
    · simp only [hsz, if_neg, not_false_eq_true] at hstep
      cases hstep

theorem cv_loop_true_met_budget (encode : Nat → Option Nat) (target : Nat) :
    ∀ fuel s, cv_loop encode target fuel s = some true →
      ∃ c size, encode c = some size ∧ size ≤ target := by
  intro fuel
  induction fuel with
  | zero => intro s h; cases h
  | succ fuel ih =>
    intro s h
    rw [cv_loop] at h
    by_cases hrange : s.min_crf ≤ s.max_crf
    · simp only [hrange, if_pos] at h
      cases hstep : cv_step encode target s with
      | inl b =>
        obtain ⟨size, henc, hsz⟩ :=
          cv_step_inl_met_budget encode target s b hstep
        exact ⟨s.current_crf, size, henc, hsz⟩
      | inr s' =>
        rw [hstep] at h
        exact ih s' h
    · simp only [hrange, if_neg, not_false_eq_true,
        Option.some.injEq] at h
      cases h

/-- C2 counterexample: when an encode produces no output file (the
encoder oracle answers `none`, as for an ffmpeg failure without
`check=True`), the loop body changes neither `min_crf` nor `max_crf` —
the range `[18, 35]` does not shrink — and the loop never ends: with
100 iterations of fuel it still has not returned.  This refutes "each
iteration strictly shrinks the integer range" and "compress_video
terminates for every input". -/
theorem cv_step_range_not_shrunk :
    cv_step (fun _ => none) 921600 ⟨18, 35, 18⟩ = Sum.inr ⟨18, 35, 26⟩
    ∧ cv_loop (fun _ => none) 921600 100 ⟨18, 35, 18⟩ = none := by
  constructor
  · rfl
  · rfl

/-- C2 (amended): provided every encode attempt produces an output
file, each non-returning iteration of the CRF search strictly shrinks
the integer range `[min_crf, max_crf]` (it never widens), so the search
from `⟨18, 35, 18⟩` terminates within any fuel exceeding the range size
18, ending either by accepting an attempt or — when the bounds cross —
by reporting failure; and a `True` result is only ever reported when
some attempt met the byte budget. -/
theorem compress_video_search_terminates (encode : Nat → Option Nat)
    (target : Nat) (htotal : ∀ c, (encode c).isSome) :
    (∀ s s', s.min_crf ≤ s.current_crf → s.current_crf ≤ s.max_crf →
        cv_step encode target s = Sum.inr s' →
        s'.max_crf + 1 - s'.min_crf < s.max_crf + 1 - s.min_crf)
    ∧ (∀ fuel, 18 < fuel →
        (cv_loop encode target fuel ⟨18, 35, 18⟩).isSome)
    ∧ (∀ fuel, cv_loop encode target fuel ⟨18, 35, 18⟩ = some true →
        ∃ c size, encode c = some size ∧ size ≤ target) := by
  have hstep_shrink : ∀ s s', s.min_crf ≤ s.current_crf →
      s.current_crf ≤ s.max_crf → cv_step encode target s = Sum.inr s' →
      s'.max_crf + 1 - s'.min_crf < s.max_crf + 1 - s.min_crf
      ∧ s'.current_crf = (s'.min_crf + s'.max_crf) / 2 := by
    intro s s' hlo hhi hstep
    rw [cv_step] at hstep
    cases henc : encode s.current_crf with
    | none => exact absurd (congrArg Option.isSome henc) (by simp [htotal])
    | some size =>
      rw [henc] at hstep
      by_cases hsz : size ≤ target
      · simp only [hsz, if_pos] at hstep
        by_cases hacc : s.current_crf = s.min_crf ∨ 9 * target < 10 * size
        · simp only [hacc, if_pos] at hstep; cases hstep
        · simp only [hacc, if_neg, not_false_eq_true,
            Sum.inr.injEq] at hstep
          cases hstep
          have hne : s.current_crf ≠ s.min_crf := fun hc => hacc (Or.inl hc)
          constructor
          · simp only []
            omega
          · rfl
      · simp only [hsz, if_neg, not_false_eq_true, Sum.inr.injEq] at hstep
        cases hstep
        constructor
        · simp only []
          omega
        · rfl
  have hloop : ∀ fuel s, s.max_crf + 1 - s.min_crf < fuel →
      (s.min_crf ≤ s.max_crf →
        s.min_crf ≤ s.current_crf ∧ s.current_crf ≤ s.max_crf) →
      (cv_loop encode target fuel s).isSome := by
    intro fuel
    induction fuel with
    | zero => intro s hf _; omega
    | succ fuel ih =>
      intro s hf hinv
      rw [cv_loop]
      by_cases hrange : s.min_crf ≤ s.max_crf
      · simp only [hrange, if_pos]
        cases hstep : cv_step encode target s with
        | inl b => simp
        | inr s' =>
          obtain ⟨hlo, hhi⟩ := hinv hrange
          obtain ⟨hshrink, hmid⟩ := hstep_shrink s s' hlo hhi hstep
          exact ih s' (by omega) (fun hr => by omega)
      · simp [hrange]
  refine ⟨fun s s' hlo hhi hstep => (hstep_shrink s s' hlo hhi hstep).1,
    fun fuel hfuel => hloop fuel ⟨18, 35, 18⟩ (by simpa using hfuel)
      (fun _ => by simp), fun fuel => cv_loop_true_met_budget encode target fuel _⟩

/-- Witness for `compress_video_search_terminates`: an encoder that
always produces a 500000-byte file terminates the search within fuel
19 on a 921600-byte budget, and its `True` result comes with an
attempt meeting the budget. -/
theorem compress_video_search_terminates_witness :
    (cv_loop (fun _ => some 500000) 921600 19 ⟨18, 35, 18⟩).isSome :=
  (compress_video_search_terminates (fun _ => some 500000) 921600
    (fun c => by simp)).2.1 19 (by omega)

theorem convert_if_needed_encSize (img : PyImage) :
    (convert_if_needed img).encSize = img.encSize := by
  rw [convert_if_needed]
  split
  · rfl
  · rfl

theorem ci_loop_succ (enc : Nat → ℚ → Nat) (budget fuel quality : Nat)
    (scale : ℚ) (q' : Nat) (s' : ℚ)
    (hq : q' = if 20 < quality then quality - 5 else quality)
    (hs : s' = if 20 < quality then scale else scale * (3/4))
    (h : (ci_loop enc budget fuel q' s').isSome) :
    (ci_loop enc budget (fuel + 1) quality scale).isSome := by
  rw [ci_loop]
  by_cases hsz : enc quality scale ≤ budget
  · simp [hsz]
  · by_cases hstop : (if 20 < quality then scale else scale * (3/4)) < 3/10
    · simp [hsz, hstop]
    · simp only [hsz, if_neg, not_false_eq_true, hstop]
      subst hq
      subst hs
      exact h

theorem ci_loop_succ_stop (enc : Nat → ℚ → Nat) (budget fuel quality : Nat)
    (scale : ℚ)
    (h : (if 20 < quality then scale else scale * (3/4)) < 3/10) :
    (ci_loop enc budget (fuel + 1) quality scale).isSome := by
  rw [ci_loop]
  by_cases hsz : enc quality scale ≤ budget
  · simp [hsz]
  · simp [hsz, h]

theorem ci_loop_qphase (enc : Nat → ℚ → Nat) (budget : Nat) :
    ∀ k fuel (scale : ℚ), (ci_loop enc budget fuel 20 scale).isSome →
      (ci_loop enc budget (fuel + k) (20 + 5 * k) scale).isSome := by
  intro k
  induction k with
  | zero => intro fuel scale h; simpa using h
  | succ k ih =>
    intro fuel scale h
    have hnext := ih fuel scale h
    have hstep : (ci_loop enc budget (fuel + k + 1) (20 + 5 * (k + 1))
        scale).isSome := by
      refine ci_loop_succ enc budget (fuel + k) (20 + 5 * (k + 1)) scale
        (20 + 5 * k) scale ?_ ?_ hnext
      · rw [if_pos (by omega : 20 < 20 + 5 * (k + 1))]
        omega
      · rw [if_pos (by omega : 20 < 20 + 5 * (k + 1))]
    have heq : fuel + (k + 1) = fuel + k + 1 := by omega
    rw [heq]
    exact hstep

/-- From quality 95 and scale 1.0 the `compress_image` loop always
exits within 20 iterations: 15 quality decrements (95 → 20), then four
scale reductions (1 → 81/256), after which the next reduction crosses
the 0.3 floor. -/
theorem ci_loop_init_isSome (enc : Nat → ℚ → Nat) (budget : Nat) :
    (ci_loop enc budget 20 95 1).isSome := by
  have h1 : (ci_loop enc budget 1 20 (81/256)).isSome :=
    ci_loop_succ_stop enc budget 0 20 (81/256) (by norm_num)
  have h2 : (ci_loop enc budget 2 20 (27/64)).isSome :=
    ci_loop_succ enc budget 1 20 (27/64) 20 (81/256) (by norm_num)
      (by norm_num) h1
  have h3 : (ci_loop enc budget 3 20 (9/16)).isSome :=
    ci_loop_succ enc budget 2 20 (9/16) 20 (27/64) (by norm_num)
      (by norm_num) h2
  have h4 : (ci_loop enc budget 4 20 (3/4)).isSome :=
    ci_loop_succ enc budget 3 20 (3/4) 20 (9/16) (by norm_num)
      (by norm_num) h3
  have h5 : (ci_loop enc budget 5 20 1).isSome :=
    ci_loop_succ enc budget 4 20 1 20 (3/4) (by norm_num)
      (by norm_num) h4
  have h20 := ci_loop_qphase enc budget 15 5 1 h5
  norm_num at h20
  exact h20

/-- C8 counterexample: on a path whose bytes `PIL.Image.open` cannot
decode (or a missing file), `Image.open` raises on the very first line
of `compress_image` and no handler exists: no boolean is returned and
the file is not rewritten.  This refutes "never raises for any input
path; always returns a boolean". -/
theorem compress_image_unopenable_raises :
    compress_image none 900 = (none, FileContent.untouched)
    ∧ ∀ b : Bool, (compress_image none 900).1 ≠ some b := by
  constructor
  · rfl
  · intro b
    simp [compress_image]

/-- C8 (amended): `compress_image` can raise on two paths — an
unopenable input (`Image.open`, the counterexample above) and an
opened image whose mode the RGBA/P-only normalization leaves
non-JPEG-writable (e.g. `LA`, `I`), where the first save at line 313
raises.  Whenever `Image.open` succeeds and the normalized mode is
JPEG-writable, `compress_image` returns a boolean — the verdict that
the finally-written JPEG's size fits `max_size_kb * 1024` bytes — and
the file afterwards holds the JPEG bytes of the loop's final encode,
for every encoder oracle and budget. -/
theorem compress_image_returns_verdict_when_opened (img : PyImage)
    (max_size_kb : Nat)
    (hmode : jpeg_writable (convert_if_needed img).mode = true) :
    ∃ quality size, ∃ scale : ℚ,
      compress_image (some img) max_size_kb
        = (some (decide (size ≤ max_size_kb * 1024)),
            FileContent.jpegEncoded (convert_if_needed img).mode
              quality scale size) := by
  have h := ci_loop_init_isSome (convert_if_needed img).encSize
    (max_size_kb * 1024)
  rw [compress_image]
  simp only [hmode, if_true]
  cases hloop : ci_loop (convert_if_needed img).encSize
      (max_size_kb * 1024) 20 95 1 with
  | none => rw [hloop] at h; simp at h
  | some t =>
    obtain ⟨q, s, n⟩ := t
    exact ⟨q, n, s, rfl⟩

/-- Witness for `compress_image_returns_verdict_when_opened` at a
concrete opened image of JPEG-writable mode. -/
theorem compress_image_returns_verdict_when_opened_witness :
    ∃ quality size, ∃ scale : ℚ,
      compress_image (some (PyImage.mk "RGB" (fun _ _ => 0))) 900
        = (some (decide (size ≤ 900 * 1024)),
            FileContent.jpegEncoded
              (convert_if_needed (PyImage.mk "RGB" (fun _ _ => 0))).mode
              quality scale size) :=
  compress_image_returns_verdict_when_opened
    (PyImage.mk "RGB" (fun _ _ => 0)) 900 (by decide)

/-- C10 counterexample: a decodable grayscale-plus-alpha PNG opens as
mode `LA`; the RGBA/P-only normalization does not touch it, so the
first `resized_img.save(..., format="JPEG")` (`src/hello.py` line 313)
raises `OSError` with no handler, before the write at lines 326-327 —
the file is NOT replaced with JPEG data.  This refutes "for every
decodable input image, compress_image unconditionally replaces the
bytes ... with JPEG-encoded (RGB) data". -/
theorem compress_image_la_mode_not_replaced :
    compress_image (some (PyImage.mk "LA" (fun _ _ => 0))) 900
      = (none, FileContent.untouched)
    ∧ jpeg_writable "LA" = false := by
  constructor
  · rfl
  · rfl

/-- C10 (amended): for every decodable input image whose mode after
the RGBA/P-only normalization is one PIL can write as JPEG (`1`, `L`,
`RGB`, `RGBX`, `CMYK`, `YCbCr`), `compress_image` unconditionally
replaces the bytes at the path with JPEG-encoded data in that
normalized mode's colorspace (not necessarily RGB: an `L` grayscale
input stays grayscale) — regardless of the original format, of the
path's extension, and of whether the verdict is success or failure
(the write at lines 326-327 of `src/hello.py` is unconditional, and
the first encode happens even when the original bytes were already
under budget).  For a decodable image of any other mode the first save
raises and the file is left un-replaced. -/
theorem compress_image_writes_normalized_jpeg (img : PyImage)
    (max_size_kb : Nat)
    (hmode : jpeg_writable (convert_if_needed img).mode = true) :
    ∃ quality size, ∃ scale : ℚ,
      (compress_image (some img) max_size_kb).2
        = FileContent.jpegEncoded (convert_if_needed img).mode
            quality scale size := by
  obtain ⟨q, n, s, h⟩ :=
    compress_image_returns_verdict_when_opened img max_size_kb hmode
  exact ⟨q, n, s, by rw [h]⟩

/-- Witness for `compress_image_writes_normalized_jpeg` at a concrete
palette-mode image whose encodes never fit the budget (verdict is
failure, yet the file is JPEG in the normalized `RGB` mode). -/
theorem compress_image_writes_normalized_jpeg_witness :
    ∃ quality size, ∃ scale : ℚ,
      (compress_image (some (PyImage.mk "P" (fun _ _ => 10000000))) 900).2
        = FileContent.jpegEncoded
            (convert_if_needed (PyImage.mk "P" (fun _ _ => 10000000))).mode
            quality scale size :=
  compress_image_writes_normalized_jpeg
    (PyImage.mk "P" (fun _ _ => 10000000)) 900 (by decide)

theorem ThreadInv_append (st : TState) (q : BskyPost) (u ctr : Nat)
    (par : Option Nat) (hInv : ThreadInv st) (hq : postTextOk q)
    (hroot : q.rootAtCreation = st.root) :
    ThreadInv (TState.mk
      (match st.root with | none => some u | some r => some r)
      par ctr (st.posts ++ [q])) := by
  obtain ⟨h1, h2, h3⟩ := hInv
  refine ⟨?_, ?_, ?_⟩
  · constructor
    · intro hr
      exfalso
      cases hst : st.root with
      | none => rw [hst] at hr; simp at hr
      | some r => rw [hst] at hr; simp at hr
    · intro hps
      exact absurd hps (by simp)
  · intro p hp
    rw [List.mem_append] at hp
    rcases hp with hp | hp
    · exact h2 p hp
    · rw [List.mem_singleton] at hp
      subst hp
      exact hq
  · intro k h
    have hlen : k < st.posts.length + 1 := by
      simpa using h
    by_cases hk : k < st.posts.length
    · have hget : (st.posts ++ [q]).get ⟨k, h⟩ = st.posts.get ⟨k, hk⟩ := by
        rw [List.get_eq_getElem, List.get_eq_getElem,
          List.getElem_append_left hk]
      rw [hget]
      exact h3 k hk
    · have hk' : k = st.posts.length := by omega
      subst hk'
      have hget : (st.posts ++ [q]).get ⟨st.posts.length, h⟩ = q := by
        simp [List.get_eq_getElem, List.getElem_concat_length]
      rw [hget, hroot]
      exact h1.trans List.length_eq_zero.symm

theorem process_batch_ThreadInv (w : World) (total : Nat) (st : TState)
    (batch : Nat × List (List Char)) (h : ThreadInv st) :
    ThreadInv (process_batch w total st batch) := by
  rw [process_batch]
  split
  · exact h
  · split
    · refine ThreadInv_append st _ st.ctr (st.ctr + 1) (some st.ctr) h ?_ rfl
      by_cases hi : batch.1 = 0
      · simp [postTextOk, hi]
      · simp [postTextOk, hi]
    · exact h

theorem process_video_ThreadInv (w : World) (st : TState)
    (path0 : List Char) (h : ThreadInv st) :
    ThreadInv (process_video w st path0) := by
  rw [process_video]
  split
  · exact h
  · split
    · refine ThreadInv_append st _ st.ctr (st.ctr + 1) (some st.ctr) h ?_ rfl
      by_cases hr : st.root = none
      · simp [postTextOk, hr]
      · simp [postTextOk, hr]
    · exact h

theorem foldl_ThreadInv {α : Type} (f : TState → α → TState)
    (hf : ∀ s x, ThreadInv s → ThreadInv (f s x)) :
    ∀ (l : List α) (s : TState), ThreadInv s → ThreadInv (l.foldl f s) := by
  intro l
  induction l with
  | nil => intro s h; exact h
  | cons x xs ih => intro s h; exact ih (f s x) (hf s x h)

theorem create_bluesky_thread_ThreadInv (w : World)
    (media : List (List Char)) :
    ThreadInv (create_bluesky_thread w media) := by
  rw [create_bluesky_thread]
  refine foldl_ThreadInv _ (fun s x hs => process_video_ThreadInv w s x hs)
    _ _ ?_
  refine foldl_ThreadInv _ (fun s x hs => process_batch_ThreadInv w _ s x hs)
    _ _ ?_
  refine ⟨by simp, fun p hp => absurd hp (by simp), fun k hk => ?_⟩
  simp at hk

/-- C5 counterexample: with 8 images and the very first post-creation
attempt failing, the thread consists of exactly one post — its root —
created from the second image batch: it carries the positional caption
`Continued... (2/2)` and no facets, not the full formatted text, because
the source keys text and facets off the batch index `i == 0`, not off
root existence.  This refutes "the first post of the thread (the root)
carries the full formatted text ... including when an earlier post
attempt failed and a later attempt became the root". -/
theorem thread_root_without_full_text :
    (create_bluesky_thread wFirstSendFails
        ["a.jpg".toList, "b.jpg".toList, "c.jpg".toList, "d.jpg".toList,
         "e.jpg".toList, "f.jpg".toList, "g.jpg".toList,
         "h.jpg".toList]).posts
      = [BskyPost.mk (PostKind.imageBatch 4) (PostText.continued 2 2) false
          none 1 none]
    ∧ PostText.continued 2 2 ≠ PostText.full := by
  constructor
  · decide
  · decide

/-- C5 (amended): in every thread produced by `create_bluesky_thread`,
an image-batch post carries the full formatted text and the facet
annotations exactly when its batch index is 0 — so when the first batch
fails and a later batch becomes the thread root, the root carries a
`Continued... (k/n)` caption and no facets — while a video post carries
the full text and facets exactly when it is the first post of the
thread (no earlier post succeeded), and a short `(Video)` caption with
no facets otherwise. -/
theorem thread_post_text_facets_rule (w : World)
    (media : List (List Char)) :
    (∀ p ∈ (create_bluesky_thread w media).posts, postTextOk p)
    ∧ (∀ k, ∀ h : k < (create_bluesky_thread w media).posts.length,
        (((create_bluesky_thread w media).posts.get ⟨k, h⟩).rootAtCreation
            = none ↔ k = 0)) := by
  have hInv := create_bluesky_thread_ThreadInv w media
  exact ⟨hInv.2.1, hInv.2.2⟩

/-- Witness for `thread_post_text_facets_rule`: the single post of a
one-image thread obeys the text/facet rule. -/
theorem thread_post_text_facets_rule_witness :
    postTextOk (BskyPost.mk (PostKind.imageBatch 0) PostText.full true
      none 0 none) :=
  (thread_post_text_facets_rule wAllOk ["a.jpg".toList]).1
    (BskyPost.mk (PostKind.imageBatch 0) PostText.full true none 0 none)
    (by decide)

/-- C1: with one image and one video, both fully succeeding, the image
post becomes the root and the video post is created with `reply =
none` although a root existed at its creation (`rootAtCreation = some
0`) — `send_video` is called without the computed `reply_ref`
(`src/hello.py` lines 442-447) — so the two posts are not linked into
one chain.  This evaluates the code at the claim's failing input: the
claim (and the spec's threading invariant) require the video post to
reply to `{root, preceding post}`. -/
theorem create_bluesky_thread_video_post_unlinked :
    (create_bluesky_thread wAllOk ["a.jpg".toList, "b.mp4".toList]).posts
      = [BskyPost.mk (PostKind.imageBatch 0) PostText.full true none 0 none,
         BskyPost.mk (PostKind.video "b.mp4".toList) PostText.videoCaption
           false none 1 (some 0)]
    ∧ (BskyPost.mk (PostKind.video "b.mp4".toList) PostText.videoCaption
        false none 1 (some 0)).reply = none := by
  constructor
  · decide
  · rfl

/-- C3: a source item whose single media file is a gif that
`convert_gif_to_mp4` successfully converts during the publish step
leaves `temp_p1_0.mp4` behind after the cleanup: the conversion deleted
`temp_p1_0.gif` and created `temp_p1_0.mp4`, but the `finally:` cleanup
only deletes the names recorded in `media_files` — the old `.gif`
name, which no longer exists.  This refutes "no scratch file is ever
left behind, including files produced by gif-to-mp4 conversion". -/
theorem gif_conversion_scratch_left_behind :
    check_and_post_item_fs wAllOk ["temp_p1_0.gif".toList]
      = ["temp_p1_0.mp4".toList]
    ∧ ["temp_p1_0.mp4".toList] ≠ ([] : List (List Char)) := by
  constructor
  · decide
  · decide
